import Mathlib

/-!
Verification development for ClickHouse's `StorageMergeTreeIndex`
(src/Storages/StorageMergeTreeIndex.cpp): a virtual table exposing the
primary index of the parts of a MergeTree table, one row per granule,
with synthetic metadata columns and optional per-column mark bookmarks.

The embedding follows the source file:
 * `generate` / `materializeColumn` embed `MergeTreeIndexSource::generate`;
 * `fillMarks` embeds `MergeTreeIndexSource::fillMarks` (it additionally
   returns the list of queries issued to the marks loader, so that
   "no load call is made" and "exactly one query per granule" are statable);
 * `getFilteredDataParts` embeds `StorageMergeTreeIndex::getFilteredDataParts`,
   with the external predicate-pushdown evaluator
   (`VirtualColumnUtils::filterBlockWithQuery`) abstracted as a function
   on the part-name block;
 * `runSource` embeds the pull loop of the `ISource` interface: one chunk
   per part until the part list is exhausted or an exception is thrown.
-/

namespace StorageMergeTreeIndex

/-- One mark: the pair of offsets recorded per (column, granule)
(`MarkInCompressedFile`). -/
structure Mark where
  offset_in_compressed_file : Nat
  offset_in_decompressed_block : Nat
deriving Repr, DecidableEq

/-- One query issued to a marks loader: which loader (stream name and the
number of columns it was constructed with) and which (granule, column)
position was asked, i.e. one `marks_loader->getMark(i, col_idx)` call. -/
structure MarkQuery where
  stream_name : String
  num_columns : Nat
  granule : Nat
  col_idx : Nat
deriving Repr, DecidableEq

/-- A `MergeTreeMarksLoader` handle: identified by the stream it reads and
the number of columns it serves; `getMark` is the external lazily-loading
accessor (`getMark(row_index, column_index)`). -/
structure MarksLoader where
  stream_name : String
  num_columns : Nat
  getMark : Nat → Nat → Mark

/-- The physical layout tag of a data part (`MergeTreeDataPartType`). -/
inductive PartType where
  | wide
  | compact
  | other (type_name : String)
deriving Repr, DecidableEq

/-- `part->getTypeName()`. -/
def PartType.getTypeName : PartType → String
  | .wide => "Wide"
  | .compact => "Compact"
  | .other s => s

/-- A cell value of an emitted column. `markPair` is a row of the
`ColumnTuple` of two `ColumnNullable(ColumnUInt64)` built by `fillMarks`. -/
inductive Value where
  | str (s : String)
  | uint (n : Nat)
  | markPair (compressed : Option Nat) (decompressed : Option Nat)
deriving Repr, DecidableEq

/-- A declared column type, as far as this storage dispatches on it. -/
inductive DataType where
  | string
  | uint64
  | markTuple
  | other (name : String)
deriving Repr, DecidableEq

/-- Default value of a declared type (`IDataType::createColumnConstWithDefaultValue`,
outside src/). Modelled from the spec for the mark tuple type: the declared
default-value semantics of the bookmark output type is "a non-null default
tuple, not a null entry" — implementers should preserve "default, not null"
for total absence. The remaining cases are the zero/empty defaults; only the
mark tuple default is ever exercised by `fillMarks` in this program. -/
def DataType.defaultValue : DataType → Value
  | .string => .str ""
  | .uint64 => .uint 0
  | .markTuple => .markPair (some 0) (some 0)
  | .other _ => .uint 0

/-- A data part, as consumed by this storage: its name, its granularity
descriptor (`index_granularity`, as the list of per-granule row counts, so
`getMarksCount()` is the list length and `getMarkRows i` the i-th entry),
its physical layout tag, its column list, its checksum/stream-name map
(for wide parts), its stored primary index block (one column per primary-key
component, one value per granule), and the external mark data served by the
marks loader (stream name → granule → column position → mark). -/
structure DataPart where
  name : String
  index_granularity : List Nat
  part_type : PartType
  columns : List String
  stream_names : List (String × String)
  index : List (List Value)
  marks : String → Nat → Nat → Mark

/-- `part->getTypeName()`. -/
def DataPart.getTypeName (part : DataPart) : String :=
  part.part_type.getTypeName

/-- `isWidePart(part)`. -/
def isWidePart (part : DataPart) : Bool :=
  part.part_type == .wide

/-- `isCompactPart(part)`. -/
def isCompactPart (part : DataPart) : Bool :=
  part.part_type == .compact

/-- `StorageMergeTreeIndex::part_name_column.name`. -/
def part_name_column : String := "part_name"

/-- `StorageMergeTreeIndex::mark_number_column.name`. -/
def mark_number_column : String := "mark_number"

/-- `StorageMergeTreeIndex::rows_in_granule_column.name`. -/
def rows_in_granule_column : String := "rows_in_granule"

/-- `MergeTreeDataPartCompact::DATA_FILE_NAME`: the single shared stream of
a compact part. -/
def DATA_FILE_NAME : String := "data"

/-- Value of a hexadecimal digit character (helper for the un-escaping). -/
def unhexDigit (c : Char) : Nat :=
  if '0' ≤ c ∧ c ≤ '9' then c.toNat - '0'.toNat
  else if 'a' ≤ c ∧ c ≤ 'f' then c.toNat - 'a'.toNat + 10
  else if 'A' ≤ c ∧ c ≤ 'F' then c.toNat - 'A'.toNat + 10
  else 0

/-- Modelled from the spec: character-level part of `unescapeForFileName`
(Common/escapeForFileName.h, outside src/), which undoes the percent-style
filename-escaping applied to column names: every `%XY` with at least two
following characters is decoded to the character with hex code XY. -/
def unescapeChars : List Char → List Char
  | [] => []
  | '%' :: a :: b :: rest => Char.ofNat (16 * unhexDigit a + unhexDigit b) :: unescapeChars rest
  | c :: rest => c :: unescapeChars rest

/-- Modelled from the spec: `unescapeForFileName` (outside src/), undoing the
filename-escaping applied to a column name. -/
def unescapeForFileName (s : String) : String :=
  String.mk (unescapeChars s.data)

/-- Modelled from the spec: `Nested::splitName(name, /*reverse=*/true)`
(DataTypes/NestedUtils.h, outside src/), the nested-name decomposition used
before suffix matching: split at the last dot, unless the dot is absent, at
position 0, or the final character, in which case the second component is
empty. -/
def splitNameRev (name : String) : String × String :=
  match ((List.range name.data.length).filter
      (fun i => name.data.getD i ' ' == '.')).getLast? with
  | none => (name, "")
  | some idx =>
    if idx = 0 ∨ idx + 1 = name.data.length then (name, "")
    else (String.mk (name.data.take idx), String.mk (name.data.drop (idx + 1)))

/-- Modelled from the spec: `part->getStreamNameOrHash(column_name, checksums)`
(outside src/), the layout-specific stream-name derivation for wide parts
from the column name and the part's checksum/stream-name map; `none` when
the column has no physical stream in this part. -/
def getStreamNameOrHash (part : DataPart) (column_name : String) : Option String :=
  part.stream_names.lookup column_name

/-- `part->getColumnPosition(column_name)`: the ordinal index of the column
within the part's column list, `none` if absent. -/
def getColumnPosition (part : DataPart) (column_name : String) : Option Nat :=
  part.columns.findIdx? (fun c => c == column_name)

/-- `MergeTreeIndexSource::createMarksLoader(part, prefix_name, num_columns)`:
a loader over the given stream, serving `num_columns` columns, backed by the
part's external mark data. -/
def createMarksLoader (part : DataPart) (prefix_name : String) (num_columns : Nat) :
    MarksLoader :=
  { stream_name := prefix_name
    num_columns := num_columns
    getMark := part.marks prefix_name }

/-- The loop of `fillMarks` once marks are known to be present: for every
granule `i`, query the loader at `(i, col_idx)` and emit the tuple of the two
offsets, each wrapped as a never-null nullable (`ColumnNullable` over a
null map of zeros). Also returns the loader queries issued. -/
def loadMarks (loader : MarksLoader) (col_idx : Nat) (num_rows : Nat) :
    List Value × List MarkQuery :=
  ((List.range num_rows).map (fun i =>
      Value.markPair (some (loader.getMark i col_idx).offset_in_compressed_file)
        (some (loader.getMark i col_idx).offset_in_decompressed_block)),
   (List.range num_rows).map (fun i =>
      { stream_name := loader.stream_name
        num_columns := loader.num_columns
        granule := i
        col_idx := col_idx }))

/-- The exceptions thrown by this storage's read path
(`ErrorCodes::NO_SUCH_COLUMN_IN_TABLE`, `ErrorCodes::NOT_IMPLEMENTED`),
carrying the offending column name, resp. the part's layout name. -/
inductive Err where
  | noSuchColumn (name : String)
  | notImplemented (type_name : String)
deriving Repr, DecidableEq

/-- The null marks loader: stands for dereferencing a null `shared_ptr` in the
source; `generate` always passes a real loader on the only path that uses it. -/
def nullLoader : MarksLoader :=
  { stream_name := "", num_columns := 0, getMark := fun _ _ => ⟨0, 0⟩ }

/-- `MergeTreeIndexSource::fillMarks`: resolve whether the column has marks in
this part (wide: a stream name exists; compact: the unescaped name occurs in
the part's column list), then either emit the default-valued column with no
loader query, or load one bookmark pair per granule. Unsupported layouts
throw `NOT_IMPLEMENTED` naming the part type. -/
def fillMarks (part : DataPart) (marks_loader : Option MarksLoader)
    (data_type : DataType) (column_name : String) :
    Except Err (List Value × List MarkQuery) :=
  let num_rows := part.index_granularity.length
  match part.part_type with
  | .wide =>
    match getStreamNameOrHash part column_name with
    | some stream_name => .ok (loadMarks (createMarksLoader part stream_name 1) 0 num_rows)
    | none => .ok (List.replicate num_rows data_type.defaultValue, [])
  | .compact =>
    match getColumnPosition part (unescapeForFileName column_name) with
    | some col_idx => .ok (loadMarks (marks_loader.getD nullLoader) col_idx num_rows)
    | none => .ok (List.replicate num_rows data_type.defaultValue, [])
  | .other _ => .error (.notImplemented part.getTypeName)

/-- The body of the column loop of `MergeTreeIndexSource::generate` for one
requested column: dispatch on the name (stored index column, one of the three
metadata columns, mark pseudo-column when marks are enabled) and materialize
the column, or throw `NO_SUCH_COLUMN_IN_TABLE`. Returns the column values
and the marks-loader queries issued for this column. -/
def materializeColumn (index_header : List String) (with_marks : Bool) (part : DataPart)
    (marks_loader : Option MarksLoader) (num_rows : Nat)
    (column_name : String) (column_type : DataType) :
    Except Err (List Value × List MarkQuery) :=
  if index_header.contains column_name then
    .ok (part.index.getD (index_header.findIdx (fun n => n == column_name)) [], [])
  else if column_name == part_name_column then
    .ok (List.replicate num_rows (Value.str part.name), [])
  else if column_name == mark_number_column then
    .ok ((List.range num_rows).map Value.uint, [])
  else if column_name == rows_in_granule_column then
    .ok (part.index_granularity.map Value.uint, [])
  else if with_marks && (splitNameRev column_name).2 == "mark" then
    fillMarks part marks_loader column_type (splitNameRev column_name).1
  else
    .error (.noSuchColumn column_name)

/-- The column loop of `MergeTreeIndexSource::generate`: materialize every
requested column in header order; the first failing column aborts the chunk. -/
def materializeColumns (index_header : List String) (with_marks : Bool) (part : DataPart)
    (marks_loader : Option MarksLoader) (num_rows : Nat) :
    List (String × DataType) → Except Err (List (List Value))
  | [] => .ok []
  | (column_name, column_type) :: rest =>
    match materializeColumn index_header with_marks part marks_loader num_rows
        column_name column_type with
    | .error e => .error e
    | .ok v =>
      match materializeColumns index_header with_marks part marks_loader num_rows rest with
      | .error e => .error e
      | .ok vs => .ok (v.1 :: vs)

/-- A relational chunk: the materialized columns and the declared row count. -/
structure Chunk where
  columns : List (List Value)
  num_rows : Nat
deriving Repr, DecidableEq

/-- The shared marks loader created at the top of `generate`: only for compact
parts, and only when marks are enabled; its width is the part's column count
and it reads the part's single shared data stream. -/
def generateLoader (with_marks : Bool) (part : DataPart) : Option MarksLoader :=
  if with_marks && isCompactPart part then
    some (createMarksLoader part DATA_FILE_NAME part.columns.length)
  else none

/-- One pull of `MergeTreeIndexSource::generate` for a given part: materialize
every requested column and assemble the chunk, whose row count is the part's
mark (granule) count. -/
def generate (header : List (String × DataType)) (index_header : List String)
    (with_marks : Bool) (part : DataPart) : Except Err Chunk :=
  let num_rows := part.index_granularity.length
  match materializeColumns index_header with_marks part (generateLoader with_marks part)
      num_rows header with
  | .error e => .error e
  | .ok cols => .ok ⟨cols, num_rows⟩

/-- The pull loop of the source: starting from the current part list, emit one
chunk per part in order; when a part's generation throws, the stream ends with
that error after the chunks already emitted; when the list is exhausted,
end-of-stream is signalled with no error. -/
def runSource (header : List (String × DataType)) (index_header : List String)
    (with_marks : Bool) : List DataPart → List Chunk × Option Err
  | [] => ([], none)
  | part :: rest =>
    match generate header index_header with_marks part with
    | .error e => ([], some e)
    | .ok c =>
      let r := runSource header index_header with_marks rest
      (c :: r.1, r.2)

/-- The semantic kind a requested column name resolves to
(spec §4.1, Requested Schema). -/
inductive ColumnKind where
  | indexValue (position : Nat)
  | partName
  | markNumber
  | rowsInGranule
  | markBookmark (target : String)
deriving Repr, DecidableEq

/-- Modelled from the spec: the upfront name resolution performed by the read
entry point (`storage_snapshot->getSampleBlockForColumns` against the declared
schema built by the table function, both outside src/). A name resolves to a
primary-key component, one of the three metadata columns, or — when marks are
enabled — a dot-suffixed `<column>.mark` pseudo-column whose target, after
undoing filename-escaping, is an underlying storage column; any other name
fails with an unknown-column error naming it. The dispatch order mirrors the
column loop of `generate`. -/
def resolveName (storage_columns : List String) (index_header : List String)
    (with_marks : Bool) (name : String) : Except Err ColumnKind :=
  if index_header.contains name then
    .ok (.indexValue (index_header.findIdx (fun n => n == name)))
  else if name == part_name_column then
    .ok .partName
  else if name == mark_number_column then
    .ok .markNumber
  else if name == rows_in_granule_column then
    .ok .rowsInGranule
  else if with_marks && (splitNameRev name).2 == "mark"
      && storage_columns.contains (unescapeForFileName (splitNameRev name).1) then
    .ok (.markBookmark (splitNameRev name).1)
  else
    .error (.noSuchColumn name)

/-- Resolution of a whole requested name list, all-or-nothing: the first
unresolvable name fails the read call. -/
def resolveSchema (storage_columns : List String) (index_header : List String)
    (with_marks : Bool) : List String → Except Err (List ColumnKind)
  | [] => .ok []
  | name :: rest =>
    match resolveName storage_columns index_header with_marks name with
    | .error e => .error e
    | .ok k =>
      match resolveSchema storage_columns index_header with_marks rest with
      | .error e => .error e
      | .ok ks => .ok (k :: ks)

/-- The read entry point: resolve the requested schema upfront (before any
part is touched), then run the chunk generator over the filtered part list.
Returns the emitted chunks and the error that ended the stream, if any. -/
def readIndex (storage_columns : List String) (header : List (String × DataType))
    (index_header : List String) (with_marks : Bool) (parts : List DataPart) :
    List Chunk × Option Err :=
  match resolveSchema storage_columns index_header with_marks (header.map Prod.fst) with
  | .error e => ([], some e)
  | .ok _ => runSource header index_header with_marks parts

/-- `StorageMergeTreeIndex::getFilteredDataParts`: when the query has no WHERE
clause, return the part list unchanged (no part-name block is built and the
evaluator is never consulted); otherwise build the block of all part names,
hand it to the external predicate-pushdown evaluator
(`VirtualColumnUtils::filterBlockWithQuery`, abstracted as the function
carried by the WHERE clause), and keep, in original order, the parts whose
names survived. -/
def getFilteredDataParts (data_parts : List DataPart)
    (where_filter : Option (List String → List String)) : List DataPart :=
  match where_filter with
  | none => data_parts
  | some filterBlockWithQuery =>
    let all_part_names := data_parts.map (fun part => part.name)
    let filtered_names := filterBlockWithQuery all_part_names
    if filtered_names.isEmpty then []
    else data_parts.filter (fun part => filtered_names.contains part.name)

/-! Structural lemmas about the column loop and the pull loop. -/

theorem materializeColumns_spec {index_header : List String} {with_marks : Bool}
    {part : DataPart} {marks_loader : Option MarksLoader} {num_rows : Nat} :
    ∀ {header : List (String × DataType)} {cols : List (List Value)},
      materializeColumns index_header with_marks part marks_loader num_rows header = .ok cols →
      List.Forall₂ (fun col v => ∃ q,
          materializeColumn index_header with_marks part marks_loader num_rows col.1 col.2
            = .ok (v, q))
        header cols := by
  intro header
  induction header with
  | nil =>
    intro cols hok
    simp only [materializeColumns, Except.ok.injEq] at hok
    subst hok
    exact List.Forall₂.nil
  | cons col rest ihx =>
    intro cols hok
    obtain ⟨cn, ct⟩ := col
    simp only [materializeColumns] at hok
    cases h1 : materializeColumn index_header with_marks part marks_loader num_rows cn ct with
    | error e => rw [h1] at hok; exact absurd hok (by simp)
    | ok v =>
      rw [h1] at hok
      cases h2 : materializeColumns index_header with_marks part marks_loader num_rows rest with
      | error e => rw [h2] at hok; exact absurd hok (by simp)
      | ok vs =>
        rw [h2] at hok
        simp only [Except.ok.injEq] at hok
        subst hok
        exact List.Forall₂.cons ⟨v.2, by simpa using h1⟩ (ihx h2)

theorem generate_ok_elim {header : List (String × DataType)} {index_header : List String}
    {with_marks : Bool} {part : DataPart} {c : Chunk}
    (hg : generate header index_header with_marks part = .ok c) :
    c.num_rows = part.index_granularity.length ∧
    materializeColumns index_header with_marks part (generateLoader with_marks part)
      part.index_granularity.length header = .ok c.columns := by
  simp only [generate] at hg
  cases h1 : materializeColumns index_header with_marks part (generateLoader with_marks part)
      part.index_granularity.length header with
  | error e => rw [h1] at hg; exact absurd hg (by simp)
  | ok cols =>
    rw [h1] at hg
    simp only [Except.ok.injEq] at hg
    subst hg
    exact ⟨rfl, rfl⟩

theorem runSource_none_forall₂ {header : List (String × DataType)} {index_header : List String}
    {with_marks : Bool} :
    ∀ {parts : List DataPart} {chunks : List Chunk},
      runSource header index_header with_marks parts = (chunks, none) →
      List.Forall₂ (fun part c => generate header index_header with_marks part = .ok c)
        parts chunks := by
  intro parts
  induction parts with
  | nil =>
    intro chunks hok
    simp only [runSource, Prod.mk.injEq] at hok
    rw [← hok.1]
    exact List.Forall₂.nil
  | cons part rest ihx =>
    intro chunks hok
    simp only [runSource] at hok
    cases h1 : generate header index_header with_marks part with
    | error e => rw [h1] at hok; simp at hok
    | ok c =>
      rw [h1] at hok
      simp only [Prod.mk.injEq] at hok
      rw [← hok.1]
      refine List.Forall₂.cons h1 (ihx ?_)
      rw [← hok.2]

theorem forall₂_num_rows_sum {parts : List DataPart} {chunks : List Chunk}
    (hf : List.Forall₂ (fun p c => c.num_rows = p.index_granularity.length) parts chunks) :
    (chunks.map Chunk.num_rows).sum = (parts.map (fun p => p.index_granularity.length)).sum := by
  induction hf with
  | nil => rfl
  | cons h _ ihx => simp [h, ihx]

theorem resolveName_materializeColumn {storage_columns index_header : List String}
    {with_marks : Bool} {name : String} {k : ColumnKind}
    (hr : resolveName storage_columns index_header with_marks name = .ok k)
    (part : DataPart) (marks_loader : Option MarksLoader) (num_rows : Nat) (t : DataType) :
    materializeColumn index_header with_marks part marks_loader num_rows name t =
      (match k with
       | .indexValue p => .ok (part.index.getD p [], [])
       | .partName => .ok (List.replicate num_rows (Value.str part.name), [])
       | .markNumber => .ok ((List.range num_rows).map Value.uint, [])
       | .rowsInGranule => .ok (part.index_granularity.map Value.uint, [])
       | .markBookmark tgt => fillMarks part marks_loader t tgt) := by
  simp only [resolveName] at hr
  simp only [materializeColumn]
  by_cases h1 : index_header.contains name = true
  · rw [if_pos h1] at hr
    rw [if_pos h1]
    injection hr with hk
    subst hk
    rfl
  · rw [if_neg h1] at hr
    rw [if_neg h1]
    by_cases h2 : (name == part_name_column) = true
    · rw [if_pos h2] at hr
      rw [if_pos h2]
      injection hr with hk
      subst hk
      rfl
    · rw [if_neg h2] at hr
      rw [if_neg h2]
      by_cases h3 : (name == mark_number_column) = true
      · rw [if_pos h3] at hr
        rw [if_pos h3]
        injection hr with hk
        subst hk
        rfl
      · rw [if_neg h3] at hr
        rw [if_neg h3]
        by_cases h4 : (name == rows_in_granule_column) = true
        · rw [if_pos h4] at hr
          rw [if_pos h4]
          injection hr with hk
          subst hk
          rfl
        · rw [if_neg h4] at hr
          rw [if_neg h4]
          by_cases h5 : (with_marks && (splitNameRev name).2 == "mark"
              && storage_columns.contains (unescapeForFileName (splitNameRev name).1)) = true
          · rw [if_pos h5] at hr
            injection hr with hk
            subst hk
            have h5' : (with_marks && (splitNameRev name).2 == "mark") = true := by
              rw [Bool.and_eq_true] at h5
              exact h5.1
            rw [if_pos h5']
          · rw [if_neg h5] at hr
            exact absurd hr (by simp)

theorem resolveName_error_eq {storage_columns index_header : List String}
    {with_marks : Bool} {name : String} {e : Err}
    (h : resolveName storage_columns index_header with_marks name = .error e) :
    e = .noSuchColumn name := by
  simp only [resolveName] at h
  split_ifs at h <;> simp_all

theorem resolveSchema_error_of_mem {storage_columns index_header : List String}
    {with_marks : Bool} :
    ∀ {names : List String} {bad : String}, bad ∈ names →
      resolveName storage_columns index_header with_marks bad = .error (.noSuchColumn bad) →
      ∃ off, off ∈ names ∧
        resolveName storage_columns index_header with_marks off = .error (.noSuchColumn off) ∧
        resolveSchema storage_columns index_header with_marks names
          = .error (.noSuchColumn off) := by
  intro names
  induction names with
  | nil => intro bad hmem _; exact absurd hmem (List.not_mem_nil bad)
  | cons n rest ihx =>
    intro bad hmem hbad
    cases h1 : resolveName storage_columns index_header with_marks n with
    | error e =>
      have he : e = .noSuchColumn n := resolveName_error_eq h1
      subst he
      exact ⟨n, List.mem_cons_self n rest, h1, by simp only [resolveSchema, h1]⟩
    | ok k =>
      have hbr : bad ∈ rest := by
        rcases List.mem_cons.mp hmem with h | h
        · subst h
          rw [h1] at hbad
          exact absurd hbad (by simp)
        · exact h
      obtain ⟨off, hoff_mem, hoff_err, hoff_schema⟩ := ihx hbr hbad
      refine ⟨off, List.mem_cons_of_mem n hoff_mem, hoff_err, ?_⟩
      simp only [resolveSchema, h1, hoff_schema]

theorem resolveSchema_cons_elim {storage_columns index_header : List String}
    {with_marks : Bool} {n : String} {rest : List String} {kinds : List ColumnKind}
    (h : resolveSchema storage_columns index_header with_marks (n :: rest) = .ok kinds) :
    ∃ k ks, resolveName storage_columns index_header with_marks n = .ok k ∧
      resolveSchema storage_columns index_header with_marks rest = .ok ks ∧
      kinds = k :: ks := by
  simp only [resolveSchema] at h
  cases h1 : resolveName storage_columns index_header with_marks n with
  | error e => rw [h1] at h; exact absurd h (by simp)
  | ok k =>
    rw [h1] at h
    cases h2 : resolveSchema storage_columns index_header with_marks rest with
    | error e => rw [h2] at h; exact absurd h (by simp)
    | ok ks =>
      rw [h2] at h
      simp only [Except.ok.injEq] at h
      exact ⟨k, ks, rfl, rfl, h.symm⟩

theorem fillMarks_other {part : DataPart} {tn : String}
    (h : part.part_type = .other tn)
    (marks_loader : Option MarksLoader) (t : DataType) (cn : String) :
    fillMarks part marks_loader t cn = .error (.notImplemented tn) := by
  simp [fillMarks, h, DataPart.getTypeName, PartType.getTypeName]

theorem runSource_append_ok {header : List (String × DataType)} {index_header : List String}
    {with_marks : Bool} :
    ∀ {pre : List DataPart} (l : List DataPart),
      (∀ p ∈ pre, ∃ c, generate header index_header with_marks p = .ok c) →
      ∃ cs, runSource header index_header with_marks (pre ++ l)
          = (cs ++ (runSource header index_header with_marks l).1,
             (runSource header index_header with_marks l).2) ∧
        cs.length = pre.length := by
  intro pre
  induction pre with
  | nil => intro l _; exact ⟨[], by simp, rfl⟩
  | cons p rest ihx =>
    intro l hpre
    obtain ⟨c, hc⟩ := hpre p (List.mem_cons_self p rest)
    obtain ⟨cs, hcs, hlen⟩ := ihx l (fun q hq => hpre q (List.mem_cons_of_mem p hq))
    refine ⟨c :: cs, ?_, by simp [hlen]⟩
    simp only [List.cons_append, runSource, hc, List.append_eq, hcs]

theorem materializeColumns_err_of_mark_other {storage_columns index_header : List String}
    {with_marks : Bool} :
    ∀ {header : List (String × DataType)} {kinds : List ColumnKind},
      resolveSchema storage_columns index_header with_marks (header.map Prod.fst) = .ok kinds →
      (∃ tgt, ColumnKind.markBookmark tgt ∈ kinds) →
      ∀ {part : DataPart} {tn : String}, part.part_type = .other tn →
      ∀ (marks_loader : Option MarksLoader) (num_rows : Nat),
        materializeColumns index_header with_marks part marks_loader num_rows header
          = .error (.notImplemented tn) := by
  intro header
  induction header with
  | nil =>
    intro kinds hres hmk part tn hother ml nr
    simp only [List.map_nil, resolveSchema, Except.ok.injEq] at hres
    obtain ⟨tgt, htgt⟩ := hmk
    rw [← hres] at htgt
    exact absurd htgt (List.not_mem_nil _)
  | cons col rest ihx =>
    intro kinds hres hmk part tn hother ml nr
    obtain ⟨cn, ct⟩ := col
    simp only [List.map_cons] at hres
    obtain ⟨k, ks, hk, hks, hkinds⟩ := resolveSchema_cons_elim hres
    have hmc := resolveName_materializeColumn hk part ml nr ct
    subst hkinds
    obtain ⟨tgt, htgt⟩ := hmk
    cases k with
    | markBookmark tgt0 =>
      simp only [materializeColumns, hmc, fillMarks_other hother ml ct tgt0]
    | indexValue p =>
      have htl : ColumnKind.markBookmark tgt ∈ ks := by
        rcases List.mem_cons.mp htgt with h | h
        · exact absurd h (by simp)
        · exact h
      have hrest := ihx hks ⟨tgt, htl⟩ hother ml nr
      simp only [materializeColumns, hmc, hrest]
    | partName =>
      have htl : ColumnKind.markBookmark tgt ∈ ks := by
        rcases List.mem_cons.mp htgt with h | h
        · exact absurd h (by simp)
        · exact h
      have hrest := ihx hks ⟨tgt, htl⟩ hother ml nr
      simp only [materializeColumns, hmc, hrest]
    | markNumber =>
      have htl : ColumnKind.markBookmark tgt ∈ ks := by
        rcases List.mem_cons.mp htgt with h | h
        · exact absurd h (by simp)
        · exact h
      have hrest := ihx hks ⟨tgt, htl⟩ hother ml nr
      simp only [materializeColumns, hmc, hrest]
    | rowsInGranule =>
      have htl : ColumnKind.markBookmark tgt ∈ ks := by
        rcases List.mem_cons.mp htgt with h | h
        · exact absurd h (by simp)
        · exact h
      have hrest := ihx hks ⟨tgt, htl⟩ hother ml nr
      simp only [materializeColumns, hmc, hrest]

theorem materializeColumns_ok_of_nomark {storage_columns index_header : List String}
    {with_marks : Bool} :
    ∀ {header : List (String × DataType)} {kinds : List ColumnKind},
      resolveSchema storage_columns index_header with_marks (header.map Prod.fst) = .ok kinds →
      (∀ tgt, ColumnKind.markBookmark tgt ∉ kinds) →
      ∀ (part : DataPart) (marks_loader : Option MarksLoader) (num_rows : Nat),
        ∃ cols, materializeColumns index_header with_marks part marks_loader num_rows header
          = .ok cols := by
  intro header
  induction header with
  | nil => intro kinds _ _ part ml nr; exact ⟨[], rfl⟩
  | cons col rest ihx =>
    intro kinds hres hnm part ml nr
    obtain ⟨cn, ct⟩ := col
    simp only [List.map_cons] at hres
    obtain ⟨k, ks, hk, hks, hkinds⟩ := resolveSchema_cons_elim hres
    subst hkinds
    have hnm' : ∀ tgt, ColumnKind.markBookmark tgt ∉ ks :=
      fun tgt h => hnm tgt (List.mem_cons_of_mem _ h)
    obtain ⟨cols, hcols⟩ := ihx hks hnm' part ml nr
    have hmc := resolveName_materializeColumn hk part ml nr ct
    cases k with
    | markBookmark tgt => exact absurd (List.mem_cons_self _ _) (hnm tgt)
    | indexValue p =>
      exact ⟨part.index.getD p [] :: cols, by simp only [materializeColumns, hmc, hcols]⟩
    | partName =>
      exact ⟨List.replicate nr (Value.str part.name) :: cols,
        by simp only [materializeColumns, hmc, hcols]⟩
    | markNumber =>
      exact ⟨(List.range nr).map Value.uint :: cols,
        by simp only [materializeColumns, hmc, hcols]⟩
    | rowsInGranule =>
      exact ⟨part.index_granularity.map Value.uint :: cols,
        by simp only [materializeColumns, hmc, hcols]⟩

/-! Helpers about part filtering. -/

theorem getFilteredDataParts_sublist (data_parts : List DataPart)
    (where_filter : Option (List String → List String)) :
    (getFilteredDataParts data_parts where_filter).Sublist data_parts := by
  cases where_filter with
  | none => exact List.Sublist.refl data_parts
  | some f =>
    simp only [getFilteredDataParts]
    split
    · exact List.nil_sublist data_parts
    · exact List.filter_sublist data_parts

theorem getFilteredDataParts_eq_nil (data_parts : List DataPart)
    (f : List String → List String)
    (hall : ∀ part ∈ data_parts, part.name ∉ f (data_parts.map DataPart.name)) :
    getFilteredDataParts data_parts (some f) = [] := by
  simp only [getFilteredDataParts]
  split
  · rfl
  · refine List.filter_eq_nil_iff.mpr (fun part hmem => ?_)
    simpa using hall part hmem

/-! Concrete sample data, used to evaluate the theorems on closed inputs. -/

/-- Sample external mark data: a mark determined by its granule and column. -/
def sampleMarks : String → Nat → Nat → Mark := fun _ i j => ⟨10 * i + j, i + j⟩

/-- A wide-layout sample part with three granules of 1, 2 and 1 rows. -/
def samplePartWide : DataPart :=
  { name := "all_1_1_0"
    index_granularity := [1, 2, 1]
    part_type := .wide
    columns := ["id", "v"]
    stream_names := [("id", "id"), ("v", "v")]
    index := [[.uint 0, .uint 1, .uint 3]]
    marks := sampleMarks }

/-- A compact-layout sample part with one granule of 5 rows. -/
def samplePartCompact : DataPart :=
  { name := "all_2_2_0"
    index_granularity := [5]
    part_type := .compact
    columns := ["id", "v"]
    stream_names := []
    index := [[.uint 7]]
    marks := sampleMarks }

/-- A sample part whose layout is neither wide nor compact. -/
def samplePartOther : DataPart :=
  { name := "all_3_3_0"
    index_granularity := [2]
    part_type := .other "InMemory"
    columns := ["id"]
    stream_names := []
    index := [[.uint 9]]
    marks := sampleMarks }

/-- A sample requested header: the primary-key column and the three metadata
columns. -/
def sampleHeader : List (String × DataType) :=
  [("id", .uint64), ("part_name", .string), ("mark_number", .uint64),
   ("rows_in_granule", .uint64)]

/-! The claims. -/

/-- Claim C1: on a successful read, exactly one chunk is emitted per filtered
part, in part-list order (the `Forall₂` pairs the part list with the chunk
list); each chunk's height (`num_rows`) equals its part's granule (mark) count
and its width equals the requested schema's length, with the column at each
position materialized from the schema entry at that same position; consequently
the total row count over all emitted chunks equals the sum of granule counts
over the filtered part list. -/
theorem chunk_shape_per_part
    (header : List (String × DataType)) (index_header : List String) (with_marks : Bool)
    (parts : List DataPart) (chunks : List Chunk)
    (hok : runSource header index_header with_marks parts = (chunks, none)) :
    List.Forall₂ (fun part c =>
        generate header index_header with_marks part = .ok c ∧
        c.num_rows = part.index_granularity.length ∧
        c.columns.length = header.length ∧
        List.Forall₂ (fun col v => ∃ q,
            materializeColumn index_header with_marks part (generateLoader with_marks part)
              part.index_granularity.length col.1 col.2 = .ok (v, q))
          header c.columns)
      parts chunks ∧
    (chunks.map Chunk.num_rows).sum = (parts.map (fun p => p.index_granularity.length)).sum := by
  have hf := runSource_none_forall₂ hok
  have hf2 : List.Forall₂ (fun part c =>
      generate header index_header with_marks part = .ok c ∧
      c.num_rows = part.index_granularity.length ∧
      c.columns.length = header.length ∧
      List.Forall₂ (fun col v => ∃ q,
          materializeColumn index_header with_marks part (generateLoader with_marks part)
            part.index_granularity.length col.1 col.2 = .ok (v, q))
        header c.columns)
      parts chunks := by
    refine hf.imp (fun part c hg => ?_)
    obtain ⟨hnum, hmat⟩ := generate_ok_elim hg
    have hcols := materializeColumns_spec hmat
    exact ⟨hg, hnum, hcols.length_eq.symm, hcols⟩
  refine ⟨hf2, ?_⟩
  exact forall₂_num_rows_sum (hf2.imp (fun p c h => h.2.1))

/-- The chunk that the sample read emits for `samplePartWide`. -/
def sampleChunkWide : Chunk :=
  { columns := [[.uint 0, .uint 1, .uint 3],
                [.str "all_1_1_0", .str "all_1_1_0", .str "all_1_1_0"],
                [.uint 0, .uint 1, .uint 2],
                [.uint 1, .uint 2, .uint 1]]
    num_rows := 3 }

/-- The chunk that the sample read emits for `samplePartCompact`. -/
def sampleChunkCompact : Chunk :=
  { columns := [[.uint 7], [.str "all_2_2_0"], [.uint 0], [.uint 5]]
    num_rows := 1 }

/-- Witness for C1: the sample read succeeds and the chunk-shape theorem
applies to it. -/
theorem chunk_shape_per_part_witness :
    runSource sampleHeader ["id"] false [samplePartWide, samplePartCompact]
      = ([sampleChunkWide, sampleChunkCompact], none) ∧
    (List.Forall₂ (fun part c =>
        generate sampleHeader ["id"] false part = .ok c ∧
        c.num_rows = part.index_granularity.length ∧
        c.columns.length = sampleHeader.length ∧
        List.Forall₂ (fun col v => ∃ q,
            materializeColumn ["id"] false part (generateLoader false part)
              part.index_granularity.length col.1 col.2 = .ok (v, q))
          sampleHeader c.columns)
      [samplePartWide, samplePartCompact] [sampleChunkWide, sampleChunkCompact] ∧
    ([sampleChunkWide, sampleChunkCompact].map Chunk.num_rows).sum
      = ([samplePartWide, samplePartCompact].map (fun p => p.index_granularity.length)).sum) :=
  ⟨by decide, chunk_shape_per_part _ _ _ _ _ (by decide)⟩

/-- Claim C2: in any successfully generated chunk, the `mark_number` column is
the dense sequence 0, 1, …, granule count − 1 (so its value at row i is i),
the `rows_in_granule` column is the granularity descriptor's per-granule row
counts in granule order, and the `part_name` column is the part's name
repeated granule-count times (constant within the chunk). Each conclusion
assumes the metadata name is not shadowed by a primary-key column of the same
name, since the stored-index branch is checked first. -/
theorem metadata_columns_content
    (header : List (String × DataType)) (index_header : List String) (with_marks : Bool)
    (part : DataPart) (c : Chunk)
    (hok : generate header index_header with_marks part = .ok c)
    (pos : Nat) (hpos : pos < header.length) :
    ((header.get ⟨pos, hpos⟩).1 = part_name_column →
      index_header.contains part_name_column = false →
      c.columns.getD pos []
        = List.replicate part.index_granularity.length (Value.str part.name)) ∧
    ((header.get ⟨pos, hpos⟩).1 = mark_number_column →
      index_header.contains mark_number_column = false →
      c.columns.getD pos [] = (List.range part.index_granularity.length).map Value.uint) ∧
    ((header.get ⟨pos, hpos⟩).1 = rows_in_granule_column →
      index_header.contains rows_in_granule_column = false →
      c.columns.getD pos [] = part.index_granularity.map Value.uint) := by
  obtain ⟨hnum, hmat⟩ := generate_ok_elim hok
  have hcols := materializeColumns_spec hmat
  have hpos' : pos < c.columns.length := hcols.length_eq ▸ hpos
  have hget := hcols.get hpos hpos'
  have hgd : c.columns.getD pos [] = c.columns.get ⟨pos, hpos'⟩ :=
    List.getD_eq_get _ _ hpos'
  refine ⟨?_, ?_, ?_⟩ <;> intro hname hcont <;>
    obtain ⟨q, hq⟩ := hget <;> rw [hname] at hq <;> simp only [materializeColumn] at hq
  · rw [if_neg (by rw [hcont]; exact Bool.false_ne_true), if_pos (by decide)] at hq
    injection hq with hq
    rw [hgd, ← (Prod.mk.injEq _ _ _ _).mp hq |>.1]
  · rw [if_neg (by rw [hcont]; exact Bool.false_ne_true), if_neg (by decide), if_pos (by decide)] at hq
    injection hq with hq
    rw [hgd, ← (Prod.mk.injEq _ _ _ _).mp hq |>.1]
  · rw [if_neg (by rw [hcont]; exact Bool.false_ne_true), if_neg (by decide), if_neg (by decide),
      if_pos (by decide)] at hq
    injection hq with hq
    rw [hgd, ← (Prod.mk.injEq _ _ _ _).mp hq |>.1]

/-- Witness for C2: the metadata-column theorem evaluated on the sample part,
extracting the part-name, mark-number and rows-in-granule columns. -/
theorem metadata_columns_content_witness :
    generate sampleHeader ["id"] false samplePartWide = .ok sampleChunkWide ∧
    sampleChunkWide.columns.getD 1 [] = List.replicate 3 (Value.str "all_1_1_0") ∧
    sampleChunkWide.columns.getD 2 [] = (List.range 3).map Value.uint ∧
    sampleChunkWide.columns.getD 3 [] = [1, 2, 1].map Value.uint := by
  have h : generate sampleHeader ["id"] false samplePartWide = .ok sampleChunkWide := by rfl
  refine ⟨h, ?_, ?_, ?_⟩
  · exact (metadata_columns_content sampleHeader ["id"] false samplePartWide sampleChunkWide
      h 1 (by decide)).1 (by decide) (by decide)
  · exact (metadata_columns_content sampleHeader ["id"] false samplePartWide sampleChunkWide
      h 2 (by decide)).2.1 (by decide) (by decide)
  · exact (metadata_columns_content sampleHeader ["id"] false samplePartWide sampleChunkWide
      h 3 (by decide)).2.2 (by decide) (by decide)

/-- Claim C3: for a requested mark pseudo-column whose target column is absent
from the part's physical layout (no stream name in a wide part, no position —
after undoing filename-escaping — in a compact part's column list), the
produced bookmark column has one row per granule, every row equal to the
declared type's default value, no query is issued to the marks loader, and no
error is raised; the declared default of the mark tuple type is the non-null
default pair, not a null entry. -/
theorem absent_column_default_marks
    (part : DataPart) (marks_loader : Option MarksLoader) (t : DataType) (cn : String) :
    ((part.part_type = .wide ∧ getStreamNameOrHash part cn = none) ∨
      (part.part_type = .compact ∧ getColumnPosition part (unescapeForFileName cn) = none) →
      fillMarks part marks_loader t cn
        = .ok (List.replicate part.index_granularity.length t.defaultValue, [])) ∧
    DataType.markTuple.defaultValue = Value.markPair (some 0) (some 0) := by
  refine ⟨?_, rfl⟩
  rintro (⟨hw, hs⟩ | ⟨hc, hp⟩)
  · simp [fillMarks, hw, hs]
  · simp [fillMarks, hc, hp]

/-- Witness for C3: a column with no stream in the wide sample part yields the
all-default bookmark column with zero loader queries. -/
theorem absent_column_default_marks_witness :
    ((samplePartWide.part_type = .wide ∧
        getStreamNameOrHash samplePartWide "absent" = none) ∨
      (samplePartWide.part_type = .compact ∧
        getColumnPosition samplePartWide (unescapeForFileName "absent") = none)) ∧
    fillMarks samplePartWide none .markTuple "absent"
      = .ok (List.replicate 3 DataType.markTuple.defaultValue, []) := by
  have hd : (samplePartWide.part_type = .wide ∧
        getStreamNameOrHash samplePartWide "absent" = none) ∨
      (samplePartWide.part_type = .compact ∧
        getColumnPosition samplePartWide (unescapeForFileName "absent") = none) :=
    Or.inl ⟨rfl, rfl⟩
  exact ⟨hd, (absent_column_default_marks samplePartWide none .markTuple "absent").1 hd⟩

/-- Claim C4: for a requested mark pseudo-column whose target column is present
in the part's layout, the produced column holds, per granule, the tuple of the
granule's (compressed-stream offset, decompressed-block offset), each wrapped
as a non-null nullable; in a wide part the column is read at position 0 of a
dedicated loader of width 1 over the column's derived stream name, and in a
compact part at the column's ordinal index (matched after undoing
filename-escaping) in the shared loader of width equal to the part's column
count over the shared data stream — with exactly one loader query per
granule in both cases. -/
theorem present_column_marks
    (part : DataPart) (cn : String) (t : DataType) (marks_loader : Option MarksLoader) :
    (∀ sn, part.part_type = .wide → getStreamNameOrHash part cn = some sn →
      fillMarks part marks_loader t cn = .ok
        ((List.range part.index_granularity.length).map (fun i =>
            Value.markPair (some (part.marks sn i 0).offset_in_compressed_file)
              (some (part.marks sn i 0).offset_in_decompressed_block)),
         (List.range part.index_granularity.length).map (fun i =>
            { stream_name := sn, num_columns := 1, granule := i, col_idx := 0 }))) ∧
    (∀ ci, part.part_type = .compact →
      getColumnPosition part (unescapeForFileName cn) = some ci →
      fillMarks part (generateLoader true part) t cn = .ok
        ((List.range part.index_granularity.length).map (fun i =>
            Value.markPair (some (part.marks DATA_FILE_NAME i ci).offset_in_compressed_file)
              (some (part.marks DATA_FILE_NAME i ci).offset_in_decompressed_block)),
         (List.range part.index_granularity.length).map (fun i =>
            { stream_name := DATA_FILE_NAME, num_columns := part.columns.length,
              granule := i, col_idx := ci }))) := by
  constructor
  · intro sn hw hs
    simp [fillMarks, hw, hs, loadMarks, createMarksLoader]
  · intro ci hc hp
    simp [fillMarks, hc, hp, loadMarks, createMarksLoader, generateLoader, isCompactPart]

/-- Witness for C4: the present-column theorem evaluated on the wide sample
part (column "v", dedicated loader over stream "v") and on the compact sample
part (column "v" at position 1 of the shared loader of width 2). -/
theorem present_column_marks_witness :
    samplePartWide.part_type = .wide ∧
    getStreamNameOrHash samplePartWide "v" = some "v" ∧
    fillMarks samplePartWide none .markTuple "v" = .ok
      ([.markPair (some 0) (some 0), .markPair (some 10) (some 1),
        .markPair (some 20) (some 2)],
       [⟨"v", 1, 0, 0⟩, ⟨"v", 1, 1, 0⟩, ⟨"v", 1, 2, 0⟩]) ∧
    samplePartCompact.part_type = .compact ∧
    getColumnPosition samplePartCompact (unescapeForFileName "v") = some 1 ∧
    fillMarks samplePartCompact (generateLoader true samplePartCompact) .markTuple "v" = .ok
      ([.markPair (some 1) (some 1)], [⟨"data", 2, 0, 1⟩]) := by
  refine ⟨rfl, rfl, ?_, rfl, by decide, ?_⟩
  · exact (present_column_marks samplePartWide "v" .markTuple none).1 "v" rfl rfl
  · exact (present_column_marks samplePartCompact "v" .markTuple
      (generateLoader true samplePartCompact)).2 1 rfl (by decide)

/-- Claim C5: part filtering is a pure narrowing. For every filter evaluator
the result is a sublist of the original part list — hence a subset by name in
which, when part names are unique, each surviving name appears exactly once;
when the query carries no WHERE clause the original list is returned unchanged
(no part-name block is built: there is no evaluator to consult); and a filter
that eliminates every part yields the empty list, not an error. -/
theorem part_filter_narrowing (data_parts : List DataPart) :
    (∀ f, (getFilteredDataParts data_parts (some f)).Sublist data_parts ∧
      ((getFilteredDataParts data_parts (some f)).map DataPart.name)
        ⊆ data_parts.map DataPart.name ∧
      ((data_parts.map DataPart.name).Nodup →
        ((getFilteredDataParts data_parts (some f)).map DataPart.name).Nodup)) ∧
    getFilteredDataParts data_parts none = data_parts ∧
    (∀ f, (∀ part ∈ data_parts, part.name ∉ f (data_parts.map DataPart.name)) →
      getFilteredDataParts data_parts (some f) = []) := by
  refine ⟨fun f => ?_, rfl, fun f hall => getFilteredDataParts_eq_nil data_parts f hall⟩
  have hsub := getFilteredDataParts_sublist data_parts (some f)
  have hmap := hsub.map DataPart.name
  exact ⟨hsub, hmap.subset, fun hnd => hnd.sublist hmap⟩

/-- Witness for C5: a filter surviving only a name that matches no part
eliminates every part and yields the empty list. -/
theorem part_filter_narrowing_witness :
    (∀ part ∈ [samplePartWide, samplePartCompact],
      part.name ∉ (fun _ : List String => ["none_such"])
        ([samplePartWide, samplePartCompact].map DataPart.name)) ∧
    getFilteredDataParts [samplePartWide, samplePartCompact]
      (some (fun _ => ["none_such"])) = [] := by
  have hall : ∀ part ∈ [samplePartWide, samplePartCompact],
      part.name ∉ (fun _ : List String => ["none_such"])
        ([samplePartWide, samplePartCompact].map DataPart.name) := by decide
  exact ⟨hall,
    (part_filter_narrowing [samplePartWide, samplePartCompact]).2.2 _ hall⟩

/-- Claim C10: for every filter expression the filtered part list preserves
the relative order of the original: the result is a sublist of the original
part list, and is literally built by scanning the original list in order and
keeping the parts whose names survived the evaluator (unless the evaluator
returned no rows, in which case the result is empty). -/
theorem part_filter_order (data_parts : List DataPart) :
    (∀ wf, (getFilteredDataParts data_parts wf).Sublist data_parts) ∧
    (∀ f, getFilteredDataParts data_parts (some f) =
      if (f (data_parts.map DataPart.name)).isEmpty then []
      else data_parts.filter (fun part =>
        (f (data_parts.map DataPart.name)).contains part.name)) :=
  ⟨fun wf => getFilteredDataParts_sublist data_parts wf, fun f => rfl⟩

/-- Claim C8: the chunk generator inspects requested names only per part, so
over an empty part list it signals end-of-stream immediately: no chunk and no
error for every header, including headers whose names resolve to no known
kind; the same holds when the filter eliminated every part. -/
theorem empty_part_list_no_error (header : List (String × DataType))
    (index_header : List String) (with_marks : Bool) :
    runSource header index_header with_marks [] = ([], none) ∧
    (∀ (data_parts : List DataPart) (f : List String → List String),
      (∀ part ∈ data_parts, part.name ∉ f (data_parts.map DataPart.name)) →
      runSource header index_header with_marks
        (getFilteredDataParts data_parts (some f)) = ([], none)) := by
  refine ⟨rfl, fun dp f hall => ?_⟩
  rw [getFilteredDataParts_eq_nil dp f hall]
  rfl

/-- Witness for C8: a header made of a single unresolvable name emits nothing
and raises nothing over the empty part list, and over a fully filtered-out
part list. -/
theorem empty_part_list_no_error_witness :
    runSource [("bogus", DataType.uint64)] [] false [] = ([], none) ∧
    (∀ part ∈ [samplePartWide],
      part.name ∉ (fun _ : List String => []) ([samplePartWide].map DataPart.name)) ∧
    runSource [("bogus", DataType.uint64)] [] false
      (getFilteredDataParts [samplePartWide] (some (fun _ => []))) = ([], none) := by
  have hall : ∀ part ∈ [samplePartWide],
      part.name ∉ (fun _ : List String => []) ([samplePartWide].map DataPart.name) := by
    decide
  exact ⟨(empty_part_list_no_error [("bogus", DataType.uint64)] [] false).1, hall,
    (empty_part_list_no_error [("bogus", DataType.uint64)] [] false).2 _ _ hall⟩

theorem resolveName_error_of_unknown (storage_columns index_header : List String)
    (with_marks : Bool) (name : String)
    (h1 : name ∉ index_header) (h2 : name ≠ part_name_column)
    (h3 : name ≠ mark_number_column) (h4 : name ≠ rows_in_granule_column)
    (h5 : ¬(with_marks = true ∧ (splitNameRev name).2 = "mark" ∧
      unescapeForFileName (splitNameRev name).1 ∈ storage_columns)) :
    resolveName storage_columns index_header with_marks name
      = .error (.noSuchColumn name) := by
  simp only [resolveName]
  rw [if_neg (by simpa using h1), if_neg (by simpa using h2), if_neg (by simpa using h3),
    if_neg (by simpa using h4), if_neg (by simpa using h5)]

/-- Claim C6: a read whose requested column list contains a name outside the
set of primary-key components, the three metadata names, and (when marks are
enabled) dot-suffixed mark pseudo-columns whose unescaped target is a storage
column, fails with an unknown-column error naming an offending column, before
any chunk is emitted — for every part list, so independently of the parts and
before any I/O on them. -/
theorem unknown_column_fails_upfront
    (storage_columns : List String) (header : List (String × DataType))
    (index_header : List String) (with_marks : Bool) (bad : String)
    (hmem : bad ∈ header.map Prod.fst)
    (h1 : bad ∉ index_header) (h2 : bad ≠ part_name_column)
    (h3 : bad ≠ mark_number_column) (h4 : bad ≠ rows_in_granule_column)
    (h5 : ¬(with_marks = true ∧ (splitNameRev bad).2 = "mark" ∧
      unescapeForFileName (splitNameRev bad).1 ∈ storage_columns)) :
    ∃ off, off ∈ header.map Prod.fst ∧
      resolveName storage_columns index_header with_marks off
        = .error (.noSuchColumn off) ∧
      ∀ parts, readIndex storage_columns header index_header with_marks parts
        = ([], some (.noSuchColumn off)) := by
  have hbad := resolveName_error_of_unknown storage_columns index_header with_marks bad
    h1 h2 h3 h4 h5
  obtain ⟨off, hoffmem, hofferr, hschema⟩ := resolveSchema_error_of_mem hmem hbad
  exact ⟨off, hoffmem, hofferr, fun parts => by simp only [readIndex, hschema]⟩

/-- Witness for C6: requesting the unresolvable name "bogus" (marks enabled)
fails upfront, for every part list. -/
theorem unknown_column_fails_upfront_witness :
    "bogus" ∈ ([("id", DataType.uint64), ("bogus", DataType.uint64)].map Prod.fst) ∧
    "bogus" ∉ ["id"] ∧
    (∃ off, off ∈ ([("id", DataType.uint64), ("bogus", DataType.uint64)].map Prod.fst) ∧
      resolveName ["id", "v"] ["id"] true off = .error (.noSuchColumn off) ∧
      ∀ parts, readIndex ["id", "v"] [("id", DataType.uint64), ("bogus", DataType.uint64)]
        ["id"] true parts = ([], some (.noSuchColumn off))) := by
  refine ⟨by decide, by decide, ?_⟩
  exact unknown_column_fails_upfront ["id", "v"]
    [("id", DataType.uint64), ("bogus", DataType.uint64)] ["id"] true "bogus"
    (by decide) (by decide) (by decide) (by decide) (by decide) (by decide)

/-- Claim C7: when the resolved requested schema contains a mark pseudo-column,
a part whose layout is neither wide nor compact fails generation with a
NotImplemented error naming the layout; in the pull stream the error surfaces
exactly when the offending part is reached, after one chunk per preceding
(successfully generated) part. -/
theorem unsupported_layout_error
    (storage_columns : List String) (header : List (String × DataType))
    (index_header : List String) (with_marks : Bool) (kinds : List ColumnKind)
    (hres : resolveSchema storage_columns index_header with_marks (header.map Prod.fst)
      = .ok kinds)
    (tgt : String) (hmk : ColumnKind.markBookmark tgt ∈ kinds)
    (part : DataPart) (tn : String) (hother : part.part_type = .other tn) :
    generate header index_header with_marks part = .error (.notImplemented tn) ∧
    ∀ pre rest, (∀ p ∈ pre, ∃ c, generate header index_header with_marks p = .ok c) →
      ∃ cs, runSource header index_header with_marks (pre ++ part :: rest)
          = (cs, some (.notImplemented tn)) ∧
        cs.length = pre.length := by
  have hgen : generate header index_header with_marks part
      = .error (.notImplemented tn) := by
    have hmc := materializeColumns_err_of_mark_other hres ⟨tgt, hmk⟩ hother
      (generateLoader with_marks part) part.index_granularity.length
    simp only [generate, hmc]
  refine ⟨hgen, fun pre rest hpre => ?_⟩
  obtain ⟨cs, hcs, hlen⟩ := runSource_append_ok (part :: rest) hpre
  have hrs : runSource header index_header with_marks (part :: rest)
      = ([], some (Err.notImplemented tn)) := by
    simp only [runSource, hgen]
  rw [hrs] at hcs
  exact ⟨cs, by rw [hcs]; simp, hlen⟩

/-- Witness for C7: with schema (id, v.mark), the unsupported-layout sample
part fails with NotImplemented naming "InMemory", after the wide sample part's
chunk was emitted. -/
theorem unsupported_layout_error_witness :
    resolveSchema ["id", "v"] ["id"] true
      ([("id", DataType.uint64), ("v.mark", DataType.markTuple)].map Prod.fst)
      = .ok [.indexValue 0, .markBookmark "v"] ∧
    ColumnKind.markBookmark "v" ∈ [ColumnKind.indexValue 0, ColumnKind.markBookmark "v"] ∧
    samplePartOther.part_type = .other "InMemory" ∧
    generate [("id", DataType.uint64), ("v.mark", DataType.markTuple)] ["id"] true
      samplePartOther = .error (.notImplemented "InMemory") ∧
    (∃ cs, runSource [("id", DataType.uint64), ("v.mark", DataType.markTuple)] ["id"] true
        ([samplePartWide] ++ samplePartOther :: [])
        = (cs, some (.notImplemented "InMemory")) ∧
      cs.length = [samplePartWide].length) := by
  have h := unsupported_layout_error ["id", "v"]
    [("id", DataType.uint64), ("v.mark", DataType.markTuple)] ["id"] true
    [.indexValue 0, .markBookmark "v"] (by rfl) "v" (by decide) samplePartOther
    "InMemory" rfl
  refine ⟨by rfl, by decide, rfl, h.1, h.2 [samplePartWide] [] ?_⟩
  intro p hp
  rw [List.mem_singleton] at hp
  subst hp
  exact ⟨_, rfl⟩

/-- Claim C9: the NotImplemented error is raised only while materializing a
mark pseudo-column: when the resolved requested schema contains no mark
pseudo-column, generation succeeds for every part — in particular for a part
whose layout is neither wide nor compact — emitting its chunk with the normal
shape. -/
theorem no_mark_columns_other_layout_ok
    (storage_columns : List String) (header : List (String × DataType))
    (index_header : List String) (with_marks : Bool) (kinds : List ColumnKind)
    (hres : resolveSchema storage_columns index_header with_marks (header.map Prod.fst)
      = .ok kinds)
    (hnm : ∀ tgt, ColumnKind.markBookmark tgt ∉ kinds)
    (part : DataPart) (tn : String) (hother : part.part_type = .other tn) :
    ∃ c, generate header index_header with_marks part = .ok c ∧
      c.num_rows = part.index_granularity.length ∧
      c.columns.length = header.length := by
  obtain ⟨cols, hcols⟩ := materializeColumns_ok_of_nomark hres hnm part
    (generateLoader with_marks part) part.index_granularity.length
  refine ⟨⟨cols, part.index_granularity.length⟩, ?_, rfl, ?_⟩
  · simp only [generate, hcols]
  · exact (materializeColumns_spec hcols).length_eq.symm

/-- Witness for C9: with marks enabled but only index and metadata columns
requested, the unsupported-layout sample part generates its chunk normally. -/
theorem no_mark_columns_other_layout_ok_witness :
    resolveSchema ["id", "v"] ["id"] true
      ([("id", DataType.uint64), ("part_name", DataType.string)].map Prod.fst)
      = .ok [.indexValue 0, .partName] ∧
    (∀ tgt, ColumnKind.markBookmark tgt ∉ [ColumnKind.indexValue 0, ColumnKind.partName]) ∧
    samplePartOther.part_type = .other "InMemory" ∧
    (∃ c, generate [("id", DataType.uint64), ("part_name", DataType.string)] ["id"] true
        samplePartOther = .ok c ∧
      c.num_rows = samplePartOther.index_granularity.length ∧
      c.columns.length
        = [("id", DataType.uint64), ("part_name", DataType.string)].length) := by
  have hnm : ∀ tgt, ColumnKind.markBookmark tgt
      ∉ [ColumnKind.indexValue 0, ColumnKind.partName] := by
    intro tgt h
    simp at h
  refine ⟨by rfl, hnm, rfl, ?_⟩
  exact no_mark_columns_other_layout_ok ["id", "v"]
    [("id", DataType.uint64), ("part_name", DataType.string)] ["id"] true
    [.indexValue 0, .partName] (by rfl) hnm samplePartOther "InMemory" rfl

end StorageMergeTreeIndex
